import Mathlib

/-!
Shallow embedding of `src/layer_utils/vector_layer.py` (rs-insar-explorer).

The module contains five routines built on two regular expressions:

* `checkVectorLayer` — layer-shape validation;
* `getVectorVelocityFieldName` — locates a velocity field by name pattern
  `(.*)(vel|deformation.?rate|mean.?deformation)(.*)` (IGNORECASE), excluding
  uncertainty fields, with a preference-list tie-break;
* `checkVectorLayerTimeseries` — date-pattern scan over field names;
* `extractDateValueAttributes` — parses an attribute mapping into six
  (timestamp, value) buckets using the date pattern
  `(.*)((19|20)\d{2}[\s\-\._]?[01]\d[\s\-\.]?[0123]\d)T?([012]\d[:\.]?[0-5]\d[0-5]?\d?)?(.*)`.

The regular expressions are embedded operationally, following CPython's
backtracking discipline for these specific patterns.  For both patterns the
leading greedy `(.*)` means the engine commits to the *latest* start position
at which the fixed middle part matches (within the newline-free prefix, since
`.` does not match a newline).  Inside the date and time groups every optional
separator class is disjoint from the digit class that follows it, so greedy
consumption of a separator never needs to be undone: the groups match
deterministically at a given position.  After the date group succeeds, `T?`,
the optional time group and the trailing `(.*)` can always succeed (a `match`
does not have to reach the end of the string), so no backtracking re-enters
the date group.

Machine floats only appear as payload values that are carried around, never
compared or computed with; they are modelled as `Option Rat` where `none`
stands for `nan` (the `float(value)`-failed case).  Python's `datetime` is
modelled as a record validated the way `datetime.strptime` validates fields.
`dict` iteration order is insertion order, so an attribute mapping is an
association list.
-/

/-! ### Character classes of the regular expressions -/

/-- Python `\s` (ASCII): space, tab, newline, vertical tab, form feed, carriage return. -/
def isWS (c : Char) : Bool :=
  c = ' ' || c = '\t' || c = '\n' || c = '\x0b' || c = '\x0c' || c = '\r'

/-- The class `[\s\-\._]` (first date separator). -/
def isSep1 (c : Char) : Bool := isWS c || c = '-' || c = '.' || c = '_'

/-- The class `[\s\-\.]` (second date separator; note: no underscore). -/
def isSep2 (c : Char) : Bool := isWS c || c = '-' || c = '.'

/-- The class `[:\.]` (time separator). -/
def isTimeSep (c : Char) : Bool := c = ':' || c = '.'

/-- The class `[\s:\.\-_]` used by `re.sub(r'[\s:\.\-_]?', '', x)`, which deletes
every character of the class (the `?` only adds empty matches, which are
replaced by the empty string). -/
def isStripSep (c : Char) : Bool := isWS c || c = ':' || c = '.' || c = '-' || c = '_'

/-- Python `\d` (ASCII). -/
def isDigit (c : Char) : Bool := '0' ≤ c && c ≤ '9'

/-- The class `[01]`. -/
def isZeroOne (c : Char) : Bool := c = '0' || c = '1'

/-- The class `[0123]`. -/
def isDay1 (c : Char) : Bool := c = '0' || c = '1' || c = '2' || c = '3'

/-- The class `[012]`. -/
def isHour1 (c : Char) : Bool := c = '0' || c = '1' || c = '2'

/-- The class `[0-5]`. -/
def isMin1 (c : Char) : Bool := '0' ≤ c && c ≤ '5'

/-- `re.sub(r'[\s:\.\-_]?', '', x)`: delete all separator characters. -/
def stripSeps (cs : List Char) : List Char := cs.filter (fun c => ! isStripSep c)

/-! ### Substring matching (Python's `in` on `str`) -/

/-- `needle` is a prefix of `hay` (character-exact). -/
def startsWith : List Char → List Char → Bool
  | _, [] => true
  | [], _ :: _ => false
  | c :: cs, d :: ds => c = d && startsWith cs ds

/-- Python `needle in hay` on strings: exact (case-sensitive) substring test. -/
def containsSub (hay needle : List Char) : Bool :=
  startsWith hay needle ||
    match hay with
    | [] => false
    | _ :: t => containsSub t needle

/-- Python `str.lower()` over the characters of a key (the field names in play
are ASCII, where per-character lowering agrees with `str.lower`). -/
def lowerChars (cs : List Char) : List Char := cs.map Char.toLower

/-- Case-insensitive prefix test: `lit` is given in lower case and each
character of `hay` is lowered before comparison (the effect of
`re.IGNORECASE` on a literal). -/
def startsWithCI : List Char → List Char → Bool
  | _, [] => true
  | [], _ :: _ => false
  | c :: cs, d :: ds => c.toLower = d && startsWithCI cs ds

/-! ### The date regular expression

`(.*)((19|20)\d{2}[\s\-\._]?[01]\d[\s\-\.]?[0123]\d)T?([012]\d[:\.]?[0-5]\d[0-5]?\d?)?(.*)`
-/

/-- Match a two-character item: a class test on the first character and a class
test on the second, e.g. `[01]\d`. -/
def class2 (p q : Char → Bool) : List Char → Option (List Char × List Char)
  | c :: d :: rest => if p c && q d then some ([c, d], rest) else none
  | _ => none

/-- Greedy optional single-character class, e.g. `[\s\-\.]?`.  Returns the
consumed characters (none or one) and the rest.  For every use below the class
is disjoint from the item that follows, so consuming greedily loses no match. -/
def optClass (p : Char → Bool) : List Char → List Char × List Char
  | [] => ([], [])
  | c :: rest => if p c then ([c], rest) else ([], c :: rest)

/-- The alternation `(19|20)`. -/
def matchCentury : List Char → Option (List Char × List Char)
  | c1 :: c2 :: rest =>
    if c1 = '1' && c2 = '9' then some ([c1, c2], rest)
    else if c1 = '2' && c2 = '0' then some ([c1, c2], rest)
    else none
  | _ => none

/-- The date group `((19|20)\d{2}[\s\-\._]?[01]\d[\s\-\.]?[0123]\d)` matched at
the head of the input; returns the text of the group and the rest. -/
def matchDate (cs : List Char) : Option (List Char × List Char) :=
  match matchCentury cs with
  | none => none
  | some (g1, r1) =>
    match class2 isDigit isDigit r1 with
    | none => none
    | some (g2, r2) =>
      match optClass isSep1 r2 with
      | (s1, r3) =>
        match class2 isZeroOne isDigit r3 with
        | none => none
        | some (g3, r4) =>
          match optClass isSep2 r4 with
          | (s2, r5) =>
            match class2 isDay1 isDigit r5 with
            | none => none
            | some (g4, r6) => some (g1 ++ g2 ++ s1 ++ g3 ++ s2 ++ g4, r6)

/-- The time group `([012]\d[:\.]?[0-5]\d[0-5]?\d?)` matched at the head of the
input (the outer `?` is handled by the caller). -/
def matchTime (cs : List Char) : Option (List Char × List Char) :=
  match class2 isHour1 isDigit cs with
  | none => none
  | some (g1, r1) =>
    match optClass isTimeSep r1 with
    | (s1, r2) =>
      match class2 isMin1 isDigit r2 with
      | none => none
      | some (g2, r3) =>
        match optClass isMin1 r3 with
        | (o1, r4) =>
          match optClass isDigit r4 with
          | (o2, r5) => some (g1 ++ s1 ++ g2 ++ o1 ++ o2, r5)

/-- The trailing `(.*)`: greedily take characters up to a newline (a `match`
does not need to consume the whole string, so this always succeeds). -/
def takeToNewline (cs : List Char) : List Char := cs.takeWhile (fun c => c ≠ '\n')

/-- Groups of a successful match of the date pattern:
group 1 (`before`), group 2 (`date`), group 4 (`time`, `[]` when the optional
group did not participate) and group 5 (`after`). -/
structure DateMatch where
  before : List Char
  date : List Char
  time : List Char
  after : List Char
deriving DecidableEq, Repr

/-- Attempt `date T? time? (.*)` at the head of the input. `T?` consumes a
literal `'T'` when present (greedy; nothing after it can fail). -/
def tryMatchAt (cs : List Char) : Option (List Char × List Char × List Char) :=
  match matchDate cs with
  | none => none
  | some (d, r1) =>
    match r1 with
    | 'T' :: rest =>
      match matchTime rest with
      | none => some (d, [], takeToNewline rest)
      | some (t, r3) => some (d, t, takeToNewline r3)
    | _ =>
      match matchTime r1 with
      | none => some (d, [], takeToNewline r1)
      | some (t, r3) => some (d, t, takeToNewline r3)

/-- Wrap `tryMatchAt` into a full `DateMatch` with empty group-1 text. -/
def tryMatchHere (cs : List Char) : Option DateMatch :=
  match tryMatchAt cs with
  | none => none
  | some (d, t, a) => some ⟨[], d, t, a⟩

/-- `re.match` of the date pattern: the greedy leading `(.*)` commits to the
*latest* viable start position inside the newline-free prefix, so later start
positions are tried first; the skipped characters become group 1 (`before`),
collected on the way out. -/
def pyMatch : List Char → Option DateMatch
  | [] => tryMatchHere []
  | c :: rest =>
    if c = '\n' then tryMatchHere (c :: rest)
    else
      match pyMatch rest with
      | some m => some ⟨c :: m.before, m.date, m.time, m.after⟩
      | none => tryMatchHere (c :: rest)

/-- Whether the date pattern matches at all (used by
`checkVectorLayerTimeseries`, whose pattern is compiled with `re.IGNORECASE`;
the date group contains no letters, so success is case-independent and
independent of the optional `T`). -/
def containsDateToken : List Char → Bool
  | [] => false
  | c :: rest =>
    (matchDate (c :: rest)).isSome || (if c = '\n' then false else containsDateToken rest)

/-! ### The velocity regular expression

`(.*)(vel|deformation.?rate|mean.?deformation)(.*)` with `re.IGNORECASE`.
Only success/failure is used by the source, so the embedding is a boolean
search for the middle alternation within the newline-free prefix. -/

/-- Literal `vel` in lower case. -/
def velKw : List Char := ['v', 'e', 'l']

/-- Literal `deformation` in lower case. -/
def deformationKw : List Char := ['d', 'e', 'f', 'o', 'r', 'm', 'a', 't', 'i', 'o', 'n']

/-- Literal `rate` in lower case. -/
def rateKw : List Char := ['r', 'a', 't', 'e']

/-- Literal `mean` in lower case. -/
def meanKw : List Char := ['m', 'e', 'a', 'n']

/-- One alternative of `vel|deformation.?rate|mean.?deformation` matches at the
head of the input (case-insensitively); `.?` is any optional non-newline
character. -/
def velTokenAt (cs : List Char) : Bool :=
  startsWithCI cs velKw
  || (startsWithCI cs deformationKw &&
      (let r := cs.drop 11
       startsWithCI r rateKw ||
         (match r with
          | c :: r2 => c ≠ '\n' && startsWithCI r2 rateKw
          | [] => false)))
  || (startsWithCI cs meanKw &&
      (let r := cs.drop 4
       startsWithCI r deformationKw ||
         (match r with
          | c :: r2 => c ≠ '\n' && startsWithCI r2 deformationKw
          | [] => false)))

/-- `re.match` success of the velocity pattern: some start position inside the
newline-free prefix carries one of the alternatives. -/
def velSearch : List Char → Bool
  | [] => false
  | c :: rest => velTokenAt (c :: rest) || (if c = '\n' then false else velSearch rest)

/-! ### Layer model and messages -/

/-- `QgsMapLayer` layer kinds (only the vector/non-vector distinction matters). -/
inductive MapLayerType where
  | vectorLayer
  | rasterLayer
  | pluginLayer
  | meshLayer
deriving DecidableEq, Repr

/-- The slice of a QGIS layer the module reads: validity flag, layer kind,
geometry type tag (`0` = point, `1` = line, `2` = polygon) and the ordered
field names.  A `None` layer is `Option.none` at the call sites. -/
structure Layer where
  isValid : Bool
  type : MapLayerType
  geometryType : Nat
  fields : List String
deriving DecidableEq, Repr

/-- Message for a null or invalid layer. -/
def invalidLayerMsg : String :=
  "<span style=\"color:red;\">Invalid Layer: Please select a valid vector layer.</span>"

/-- Message for a non-vector layer. -/
def notVectorMsg : String :=
  "<span style=\"color:red;\">This is not a vector layer: Please select a valid vector layer.</span>"

/-- Message for a geometry type outside point/polygon. -/
def pointPolygonMsg : String :=
  "<span style=\"color:red;\">Invalid Layer: Please select a valid point or polygon layer.</span>"

/-- Message when no velocity field is found. -/
def invalidVelocityMsg : String :=
  "<span style=\"color:red;\">Invalid Layer: Please select a vector layer with valid velocity field.</span>"

/-- Message when no field name carries a date token (the source's f-string has
no closing `</span>`; kept verbatim). -/
def invalidTimeseriesMsg : String :=
  "<span style=\"color:red;\">Invalid Layer: Please select a vector or raster layer with valid timeseries data."

/-- `checkVectorLayer(layer)`. -/
def checkVectorLayer (layer : Option Layer) : Bool × String :=
  match layer with
  | none => (false, invalidLayerMsg)
  | some l =>
    if l.isValid = false then (false, invalidLayerMsg)
    else if l.type ≠ MapLayerType.vectorLayer then (false, notVectorMsg)
    else if l.geometryType ≠ 0 ∧ l.geometryType ≠ 2 then (false, pointPolygonMsg)
    else (true, "")

/-! ### Velocity field locator -/

/-- The uncertainty keyword `err`. -/
def errKey : List Char := ['e', 'r', 'r']

/-- The uncertainty keyword `sigma`. -/
def sigmaKey : List Char := ['s', 'i', 'g', 'm', 'a']

/-- The uncertainty keyword `std`. -/
def stdKey : List Char := ['s', 't', 'd']

/-- `keys_uncertainty = ['err', 'sigma', 'std']`. -/
def keysUncertainty : List (List Char) := [errKey, sigmaKey, stdKey]

/-- `any([ele in name for ele in keys_uncertainty])` — a case-sensitive
substring test on the raw field name. -/
def isUncertainName (cs : List Char) : Bool :=
  keysUncertainty.any (fun k => containsSub cs k)

/-- The candidate list `matches`: field names matching the velocity pattern and
not containing an uncertainty keyword. -/
def velMatches (fields : List String) : List String :=
  fields.filter (fun f => velSearch f.toList && ! isUncertainName f.toList)

/-- Preference `'velocity'`. -/
def velocityOption1 : List Char := ['v', 'e', 'l', 'o', 'c', 'i', 't', 'y']

/-- Preference `'VEL'`. -/
def velocityOption2 : List Char := ['V', 'E', 'L']

/-- Preference `'mean_velocity'`. -/
def velocityOption3 : List Char :=
  ['m', 'e', 'a', 'n', '_', 'v', 'e', 'l', 'o', 'c', 'i', 't', 'y']

/-- Preference `'deformation rate'`. -/
def velocityOption4 : List Char :=
  ['d', 'e', 'f', 'o', 'r', 'm', 'a', 't', 'i', 'o', 'n', ' ', 'r', 'a', 't', 'e']

/-- `velocity_field_name_options`. -/
def velocityFieldNameOptions : List (List Char) :=
  [velocityOption1, velocityOption2, velocityOption3, velocityOption4]

/-- The nested `for`/`else` tie-break: for each preference in order, if some
candidate contains it, remember the first such candidate and move to the next
preference; at the first preference contained in no candidate, stop and return
the candidate remembered so far. -/
def tieBreakGo (current : String) (ms : List String) : List (List Char) → String
  | [] => current
  | opt :: opts =>
    match ms.find? (fun m => containsSub m.toList opt) with
    | some m => tieBreakGo m ms opts
    | none => current

/-- `getVectorVelocityFieldName(layer)` over the layer's field names. -/
def getVectorVelocityFieldName (fields : List String) : Option String × String :=
  match velMatches fields with
  | [] => (none, invalidVelocityMsg)
  | [m] => (some m, "")
  | m0 :: m1 :: rest => (some (tieBreakGo m0 (m0 :: m1 :: rest) velocityFieldNameOptions), "")

/-- `checkVectorLayerTimeseries(layer)`. -/
def checkVectorLayerTimeseries (layer : Option Layer) : Bool × String :=
  match checkVectorLayer layer with
  | (false, message) => (false, message)
  | (true, _) =>
    match layer with
    | none => (false, invalidTimeseriesMsg)
    | some l =>
      if l.fields.any (fun f => containsDateToken f.toList) then (true, "")
      else (false, invalidTimeseriesMsg)

/-! ### Attribute values and `float(value)` -/

/-- A raw attribute value: integer, real, string, or a null-like sentinel. -/
inductive AttrValue where
  | int (n : Int)
  | real (q : Rat)
  | str (s : String)
  | null
deriving DecidableEq, Repr

/-- Digits to a natural number. -/
def natOfDigits (cs : List Char) : Nat :=
  cs.foldl (fun a c => 10 * a + (c.toNat - 48)) 0

/-- Modelled Python `float(string)`: optional surrounding whitespace, optional
sign, decimal digits with an optional fractional part.  (The exponent,
`inf`/`nan` spellings and underscores accepted by CPython are omitted; no
claim exercises them.)  `none` models a raised `ValueError`. -/
def parseFloatChars (cs0 : List Char) : Option Rat :=
  let cs1 := (cs0.dropWhile isWS).reverse.dropWhile isWS |>.reverse
  let signed : Bool × List Char :=
    match cs1 with
    | c :: rest =>
      if c = '-' then (true, rest)
      else if c = '+' then (false, rest)
      else (false, c :: rest)
    | [] => (false, [])
  let neg := signed.1
  let cs := signed.2
  let intPart := cs.takeWhile isDigit
  let rest := cs.dropWhile isDigit
  let app : Rat → Rat := fun q => if neg then -q else q
  match rest with
  | [] => if intPart = [] then none else some (app (natOfDigits intPart))
  | '.' :: frac =>
    if frac.all isDigit && (intPart ≠ [] || frac ≠ []) then
      some (app ((natOfDigits intPart : Rat)
        + (natOfDigits frac : Rat) / ((10 : Rat) ^ frac.length)))
    else none
  | _ => none

/-- Modelled Python `float(value)` on an attribute value; `none` models the
exception path, which the source converts to `np.nan`. -/
def pyFloat : AttrValue → Option Rat
  | AttrValue.int n => some (n : Rat)
  | AttrValue.real q => some q
  | AttrValue.str s => parseFloatChars s.toList
  | AttrValue.null => none

/-! ### `datetime.strptime` model -/

/-- The fields `datetime.strptime` produces for the three formats in
`d_dt_fmt` (missing time parts default to zero). -/
structure PDateTime where
  year : Nat
  month : Nat
  day : Nat
  hour : Nat
  minute : Nat
  second : Nat
deriving DecidableEq, Repr

/-- Gregorian leap year. -/
def isLeap (y : Nat) : Bool := (y % 4 = 0 && y % 100 ≠ 0) || y % 400 = 0

/-- Days in a month (for `strptime`'s day-range validation). -/
def daysInMonth (y m : Nat) : Nat :=
  if m = 2 then (if isLeap y then 29 else 28)
  else if m = 4 || m = 6 || m = 9 || m = 11 then 30
  else 31

/-- Build a validated datetime the way `datetime.strptime` validates ranges;
`none` models a raised `ValueError`. -/
def mkValidDateTime (y mo d hh mi ss : Nat) : Option PDateTime :=
  if 1 ≤ y ∧ y ≤ 9999 ∧ 1 ≤ mo ∧ mo ≤ 12 ∧ 1 ≤ d ∧ d ≤ daysInMonth y mo
      ∧ hh ≤ 23 ∧ mi ≤ 59 ∧ ss ≤ 59 then
    some ⟨y, mo, d, hh, mi, ss⟩
  else none

/-- `d_dt_fmt = {8: '%Y%m%d', 12: '%Y%m%d%H%M', 14: '%Y%m%d%H%M%S'}` followed
by `datetime.strptime(datetime_str, d_dt_fmt[len(datetime_str)])`.  A length
outside the table raises `KeyError` and an out-of-range field raises
`ValueError`; both crash `extractDateValueAttributes`, modelled as `none`. -/
def mkDateTime (ds : List Char) : Option PDateTime :=
  if ds.length = 8 then
    mkValidDateTime (natOfDigits (ds.take 4)) (natOfDigits ((ds.drop 4).take 2))
      (natOfDigits (ds.drop 6)) 0 0 0
  else if ds.length = 12 then
    mkValidDateTime (natOfDigits (ds.take 4)) (natOfDigits ((ds.drop 4).take 2))
      (natOfDigits ((ds.drop 6).take 2)) (natOfDigits ((ds.drop 8).take 2))
      (natOfDigits (ds.drop 10)) 0
  else if ds.length = 14 then
    mkValidDateTime (natOfDigits (ds.take 4)) (natOfDigits ((ds.drop 4).take 2))
      (natOfDigits ((ds.drop 6).take 2)) (natOfDigits ((ds.drop 8).take 2))
      (natOfDigits ((ds.drop 10).take 2)) (natOfDigits (ds.drop 12))
  else none

/-! ### The six buckets and the extraction pass -/

/-- `d_date_value = {'los': [], 'h': [], 'v': [], 'los_sigma': [], 'h_sigma': [], 'v_sigma': []}`.
The final `np.array(..., dtype=object)` conversion is representation-only and
is not modelled. -/
structure TSBuckets where
  los : List (PDateTime × Option Rat)
  h : List (PDateTime × Option Rat)
  v : List (PDateTime × Option Rat)
  los_sigma : List (PDateTime × Option Rat)
  h_sigma : List (PDateTime × Option Rat)
  v_sigma : List (PDateTime × Option Rat)
deriving DecidableEq, Repr

/-- All six buckets empty. -/
def emptyBuckets : TSBuckets := ⟨[], [], [], [], [], []⟩

/-- The six bucket names. -/
inductive BucketId where
  | los
  | h
  | v
  | losSigma
  | hSigma
  | vSigma
deriving DecidableEq, Repr

/-- Read one bucket. -/
def bucketGet (b : TSBuckets) : BucketId → List (PDateTime × Option Rat)
  | BucketId.los => b.los
  | BucketId.h => b.h
  | BucketId.v => b.v
  | BucketId.losSigma => b.los_sigma
  | BucketId.hSigma => b.h_sigma
  | BucketId.vSigma => b.v_sigma

/-- `d_date_value[name].append(pair)`. -/
def push (b : TSBuckets) (id : BucketId) (p : PDateTime × Option Rat) : TSBuckets :=
  match id with
  | BucketId.los => { b with los := b.los ++ [p] }
  | BucketId.h => { b with h := b.h ++ [p] }
  | BucketId.v => { b with v := b.v ++ [p] }
  | BucketId.losSigma => { b with los_sigma := b.los_sigma ++ [p] }
  | BucketId.hSigma => { b with h_sigma := b.h_sigma ++ [p] }
  | BucketId.vSigma => { b with v_sigma := b.v_sigma ++ [p] }

/-- The substring `los`. -/
def losKey : List Char := ['l', 'o', 's']

/-- The substring `h`. -/
def hKey : List Char := ['h']

/-- The substring `v`. -/
def vKey : List Char := ['v']

/-- `key_add = '_sigma' if any([ele in s_tag for ele in keys_uncertainty]) else ''`. -/
def sigmaTag (tag : List Char) : Bool :=
  keysUncertainty.any (fun k => containsSub tag k)

/-- The bucket the source appends to: the `if/elif` cascade on `s_tag`
combined with `key_add` (`'los'+key_add` etc.). -/
def bucketOf (tag : List Char) : BucketId :=
  if tag = [] || containsSub tag losKey then
    (if sigmaTag tag then BucketId.losSigma else BucketId.los)
  else if containsSub tag hKey then
    (if sigmaTag tag then BucketId.hSigma else BucketId.h)
  else if containsSub tag vKey then
    (if sigmaTag tag then BucketId.vSigma else BucketId.v)
  else
    (if sigmaTag tag then BucketId.losSigma else BucketId.los)

/-- One iteration of the `for key, value in attributes.items()` loop:
skip keys the pattern does not match; coerce the value (`nan` on failure);
parse the stripped date+time digits (a crash is `none`); route by the stripped
before+after tag. -/
def stepKey (b : TSBuckets) (key : String) (value : AttrValue) : Option TSBuckets :=
  match pyMatch (lowerChars key.toList) with
  | none => some b
  | some m =>
    match mkDateTime (stripSeps (m.date ++ m.time)) with
    | none => none
    | some dtObj =>
      some (push b (bucketOf (stripSeps (m.before ++ m.after))) (dtObj, pyFloat value))

/-- The whole loop, threading the bucket dictionary. -/
def extractGo (b : TSBuckets) : List (String × AttrValue) → Option TSBuckets
  | [] => some b
  | kv :: rest =>
    match stepKey b kv.1 kv.2 with
    | none => none
    | some b2 => extractGo b2 rest

/-- `extractDateValueAttributes(attributes)`; `none` models an uncaught
exception (`KeyError`/`ValueError` from the timestamp parse). -/
def extractDateValueAttributes (attrs : List (String × AttrValue)) : Option TSBuckets :=
  extractGo emptyBuckets attrs

/-! ### Spec-side definitions

These follow the specification's wording (not the source) and serve as the
comparison side of refinement-style claims. -/

/-- Modelled from the spec: "return the first match containing the first
preference substring found among any candidate; if no preference substring
appears in any candidate, return the first match in original field order." -/
def specTieBreakFirstPreference (ms : List String) : Option String :=
  match velocityFieldNameOptions.find? (fun opt => ms.any (fun m => containsSub m.toList opt)) with
  | some opt => ms.find? (fun m => containsSub m.toList opt)
  | none => ms.head?

/-- Spec wording: the tag contains an uncertainty keyword. -/
def specUncertainTag (tag : List Char) : Bool :=
  containsSub tag errKey || containsSub tag sigmaKey || containsSub tag stdKey

/-- The three component buckets of the spec's routing cascade. -/
inductive BaseBucket where
  | los
  | h
  | v
deriving DecidableEq, Repr

/-- Spec wording: "empty tag or tag containing `los` → los bucket; else tag
containing `h` → h bucket; else tag containing `v` → v bucket; else → los
bucket (fallback)". -/
def specBaseBucket (tag : List Char) : BaseBucket :=
  if tag = [] || containsSub tag losKey then BaseBucket.los
  else if containsSub tag hKey then BaseBucket.h
  else if containsSub tag vKey then BaseBucket.v
  else BaseBucket.los

/-- Spec wording: the value is routed to the `_sigma` variant of its component
bucket iff the tag contains an uncertainty keyword. -/
def specRoute (tag : List Char) : BucketId :=
  match specBaseBucket tag, specUncertainTag tag with
  | BaseBucket.los, false => BucketId.los
  | BaseBucket.los, true => BucketId.losSigma
  | BaseBucket.h, false => BucketId.h
  | BaseBucket.h, true => BucketId.hSigma
  | BaseBucket.v, false => BucketId.v
  | BaseBucket.v, true => BucketId.vSigma

/-- Whether a bucket is a `_sigma` variant. -/
def isSigmaBucket : BucketId → Bool
  | BucketId.losSigma => true
  | BucketId.hSigma => true
  | BucketId.vSigma => true
  | _ => false

/-- Spec wording for the validator's success condition: a non-null layer that
is valid, is a vector layer, and has point (0) or polygon (2) geometry. -/
def isValidPointOrPolygonVector (layer : Option Layer) : Prop :=
  ∃ l, layer = some l ∧ l.isValid = true ∧ l.type = MapLayerType.vectorLayer
    ∧ (l.geometryType = 0 ∨ l.geometryType = 2)

/-- Some field name of the layer carries a date token. -/
def hasDateField (layer : Option Layer) : Bool :=
  match layer with
  | none => false
  | some l => l.fields.any (fun f => containsDateToken f.toList)

/-- Total number of recorded (timestamp, value) pairs across the six buckets. -/
def totalCount (b : TSBuckets) : Nat :=
  b.los.length + b.h.length + b.v.length
    + b.los_sigma.length + b.h_sigma.length + b.v_sigma.length

/-! ### Concrete inputs used by witnesses and counterexamples -/

/-- Field name `VEL_mean`. -/
def fieldVelMean : String := "VEL_mean"

/-- Field name `VEL_err`. -/
def fieldVelErr : String := "VEL_err"

/-- Field name `VEL_ERR` (upper-case uncertainty suffix). -/
def fieldVelERRUpper : String := "VEL_ERR"

/-- Field name `a_velocity`. -/
def fieldAVelocity : String := "a_velocity"

/-- Field name `b_VEL`. -/
def fieldBVEL : String := "b_VEL"

/-- Attribute key `h20200101_err`. -/
def keyHDateErr : String := "h20200101_err"

/-- Attribute key `20200101`. -/
def keyDateOnly : String := "20200101"

/-- Attribute key `20200101T1200` (literal `T` separator). -/
def keyDateT : String := "20200101T1200"

/-- Attribute key `2020-01-0112345`: the date part matches with separators and
the time part matches with five digits, so the stripped digit string has
length 13. -/
def keyLen13 : String := "2020-01-0112345"

/-- The string value `NULL`. -/
def strNULL : String := "NULL"

/-- The groups produced for `h20200101_err` (lower-cased). -/
def hDateErrMatch : DateMatch :=
  ⟨['h'], ['2', '0', '2', '0', '0', '1', '0', '1'], [], ['_', 'e', 'r', 'r']⟩

/-- The groups produced for `20200101`. -/
def dateOnlyMatch : DateMatch :=
  ⟨[], ['2', '0', '2', '0', '0', '1', '0', '1'], [], []⟩

/-- The timestamp `datetime(2020, 1, 1)`. -/
def dt20200101 : PDateTime := ⟨2020, 1, 1, 0, 0, 0⟩

/-- The groups produced for `20200101T1200` (lower-cased to `20200101t1200`):
the pattern's literal `T` does not match the lowered `t`, so the time group is
empty and `t1200` falls into the after-group. -/
def dateTMatch : DateMatch :=
  ⟨[], ['2', '0', '2', '0', '0', '1', '0', '1'], [], ['t', '1', '2', '0', '0']⟩

/-! ### Lemmas about character classes and stripping -/

theorem isDigit_not_strip (c : Char) (h : isDigit c = true) : isStripSep c = false := by
  simp only [isDigit, Bool.and_eq_true, decide_eq_true_eq] at h
  simp only [isStripSep, isWS, Bool.or_eq_false_iff, decide_eq_false_iff_not]
  refine ⟨⟨⟨⟨⟨⟨⟨⟨⟨?_, ?_⟩, ?_⟩, ?_⟩, ?_⟩, ?_⟩, ?_⟩, ?_⟩, ?_⟩, ?_⟩ <;>
    rintro rfl <;> revert h <;> decide

theorem isZeroOne_digit (c : Char) (h : isZeroOne c = true) : isDigit c = true := by
  simp only [isZeroOne, Bool.or_eq_true, decide_eq_true_eq] at h
  rcases h with rfl | rfl <;> decide

theorem isDay1_digit (c : Char) (h : isDay1 c = true) : isDigit c = true := by
  simp only [isDay1, Bool.or_eq_true, decide_eq_true_eq] at h
  rcases h with ((rfl | rfl) | rfl) | rfl <;> decide

theorem isHour1_digit (c : Char) (h : isHour1 c = true) : isDigit c = true := by
  simp only [isHour1, Bool.or_eq_true, decide_eq_true_eq] at h
  rcases h with (rfl | rfl) | rfl <;> decide

theorem isMin1_digit (c : Char) (h : isMin1 c = true) : isDigit c = true := by
  simp only [isMin1, isDigit, Bool.and_eq_true, decide_eq_true_eq] at h ⊢
  exact ⟨h.1, le_trans h.2 (by decide)⟩

theorem isSep1_strip (c : Char) (h : isSep1 c = true) : isStripSep c = true := by
  simp only [isSep1, Bool.or_eq_true] at h
  simp only [isStripSep, Bool.or_eq_true]
  tauto

theorem isSep2_strip (c : Char) (h : isSep2 c = true) : isStripSep c = true := by
  simp only [isSep2, Bool.or_eq_true] at h
  simp only [isStripSep, Bool.or_eq_true]
  tauto

theorem isTimeSep_strip (c : Char) (h : isTimeSep c = true) : isStripSep c = true := by
  simp only [isTimeSep, Bool.or_eq_true] at h
  simp only [isStripSep, Bool.or_eq_true]
  tauto

theorem stripSeps_append (l1 l2 : List Char) :
    stripSeps (l1 ++ l2) = stripSeps l1 ++ stripSeps l2 :=
  List.filter_append l1 l2

theorem stripSeps_digits (l : List Char) (h : ∀ c ∈ l, isDigit c = true) :
    stripSeps l = l := by
  apply List.filter_eq_self.mpr
  intro c hc
  simp [isDigit_not_strip c (h c hc)]

theorem stripSeps_strips (l : List Char) (h : ∀ c ∈ l, isStripSep c = true) :
    stripSeps l = [] := by
  apply List.filter_eq_nil_iff.mpr
  intro c hc
  simp [h c hc]

/-! ### Structure of successful date/time group matches -/

theorem class2_spec {p q : Char → Bool} : ∀ {cs g r}, class2 p q cs = some (g, r) →
    ∃ a b, g = [a, b] ∧ p a = true ∧ q b = true := by
  intro cs g r h
  match cs with
  | [] => simp [class2] at h
  | [c] => simp [class2] at h
  | c :: d :: rest =>
    simp only [class2] at h
    split at h
    · rename_i hc
      simp only [Option.some.injEq, Prod.mk.injEq] at h
      exact ⟨c, d, h.1.symm, (Bool.and_eq_true ..).mp hc |>.1,
        (Bool.and_eq_true ..).mp hc |>.2⟩
    · exact absurd h (by simp)

theorem optClass_spec {p : Char → Bool} : ∀ {cs s r}, optClass p cs = (s, r) →
    s = [] ∨ ∃ c, s = [c] ∧ p c = true := by
  intro cs s r h
  match cs with
  | [] =>
    simp only [optClass, Prod.mk.injEq] at h
    exact Or.inl h.1.symm
  | c :: rest =>
    simp only [optClass] at h
    split at h
    · rename_i hc
      simp only [Prod.mk.injEq] at h
      exact Or.inr ⟨c, h.1.symm, hc⟩
    · simp only [Prod.mk.injEq] at h
      exact Or.inl h.1.symm

theorem matchCentury_spec : ∀ {cs g r}, matchCentury cs = some (g, r) →
    ∃ a b, g = [a, b] ∧ isDigit a = true ∧ isDigit b = true := by
  intro cs g r h
  match cs with
  | [] => simp [matchCentury] at h
  | [c] => simp [matchCentury] at h
  | c1 :: c2 :: rest =>
    simp only [matchCentury] at h
    split at h
    · rename_i hc
      simp only [Option.some.injEq, Prod.mk.injEq] at h
      obtain ⟨rfl, rfl⟩ := (Bool.and_eq_true ..).mp hc |>.imp decide_eq_true_eq.mp decide_eq_true_eq.mp
      exact ⟨'1', '9', h.1.symm, by decide, by decide⟩
    · split at h
      · rename_i hc
        simp only [Option.some.injEq, Prod.mk.injEq] at h
        obtain ⟨rfl, rfl⟩ := (Bool.and_eq_true ..).mp hc |>.imp decide_eq_true_eq.mp decide_eq_true_eq.mp
        exact ⟨'2', '0', h.1.symm, by decide, by decide⟩
      · exact absurd h (by simp)

theorem strip_two_digits {g : List Char} {p q : Char → Bool}
    (hp : ∀ c, p c = true → isDigit c = true) (hq : ∀ c, q c = true → isDigit c = true)
    (h : ∃ a b, g = [a, b] ∧ p a = true ∧ q b = true) :
    stripSeps g = g ∧ g.length = 2 := by
  obtain ⟨a, b, rfl, ha, hb⟩ := h
  constructor
  · apply stripSeps_digits
    intro c hc
    rcases List.mem_cons.mp hc with rfl | hc2
    · exact hp _ ha
    · rcases List.mem_cons.mp hc2 with rfl | hc3
      · exact hq _ hb
      · simp at hc3
  · rfl

theorem strip_opt_sep {s : List Char} {p : Char → Bool}
    (hp : ∀ c, p c = true → isStripSep c = true)
    (h : s = [] ∨ ∃ c, s = [c] ∧ p c = true) :
    stripSeps s = [] := by
  rcases h with rfl | ⟨c, rfl, hc⟩
  · rfl
  · apply stripSeps_strips
    intro d hd
    rcases List.mem_cons.mp hd with rfl | hd2
    · exact hp _ hc
    · simp at hd2

theorem strip_opt_digit {s : List Char} {p : Char → Bool}
    (hp : ∀ c, p c = true → isDigit c = true)
    (h : s = [] ∨ ∃ c, s = [c] ∧ p c = true) :
    stripSeps s = s ∧ s.length ≤ 1 := by
  rcases h with rfl | ⟨c, rfl, hc⟩
  · exact ⟨rfl, by simp⟩
  · refine ⟨stripSeps_digits _ ?_, by simp⟩
    intro d hd
    rcases List.mem_cons.mp hd with rfl | hd2
    · exact hp _ hc
    · simp at hd2

/-- A successful date group always strips to exactly 8 digits. -/
theorem matchDate_strip : ∀ {cs d r}, matchDate cs = some (d, r) →
    (stripSeps d).length = 8 := by
  intro cs d r h
  unfold matchDate at h
  split at h
  · exact absurd h (by simp)
  · rename_i g1 r1 h1
    split at h
    · exact absurd h (by simp)
    · rename_i g2 r2 h2
      split at h
      rename_i s1 r3 h3
      split at h
      · exact absurd h (by simp)
      · rename_i g3 r4 h4
        split at h
        rename_i s2 r5 h5
        split at h
        · exact absurd h (by simp)
        · rename_i g4 r6 h6
          simp only [Option.some.injEq, Prod.mk.injEq] at h
          obtain ⟨hd, -⟩ := h
          subst hd
          obtain ⟨e1, l1⟩ := strip_two_digits (fun c hc => hc) (fun c hc => hc)
            (matchCentury_spec h1)
          obtain ⟨e2, l2⟩ := strip_two_digits (fun c hc => hc) (fun c hc => hc)
            (class2_spec h2)
          have e3 := strip_opt_sep isSep1_strip (optClass_spec h3)
          obtain ⟨e4, l4⟩ := strip_two_digits isZeroOne_digit (fun c hc => hc)
            (class2_spec h4)
          have e5 := strip_opt_sep isSep2_strip (optClass_spec h5)
          obtain ⟨e6, l6⟩ := strip_two_digits isDay1_digit (fun c hc => hc)
            (class2_spec h6)
          simp [stripSeps_append, e1, e2, e3, e4, e5, e6, l1, l2, l4, l6]

/-- A successful time group strips to 4, 5 or 6 digits. -/
theorem matchTime_strip : ∀ {cs t r}, matchTime cs = some (t, r) →
    (stripSeps t).length = 4 ∨ (stripSeps t).length = 5 ∨ (stripSeps t).length = 6 := by
  intro cs t r h
  unfold matchTime at h
  split at h
  · exact absurd h (by simp)
  · rename_i g1 r1 h1
    split at h
    rename_i s1 r2 h2
    split at h
    · exact absurd h (by simp)
    · rename_i g2 r3 h3
      split at h
      rename_i o1 r4 h4
      split at h
      rename_i o2 r5 h5
      simp only [Option.some.injEq, Prod.mk.injEq] at h
      obtain ⟨ht, -⟩ := h
      subst ht
      obtain ⟨e1, l1⟩ := strip_two_digits isHour1_digit (fun c hc => hc) (class2_spec h1)
      have e2 := strip_opt_sep isTimeSep_strip (optClass_spec h2)
      obtain ⟨e3, l3⟩ := strip_two_digits isMin1_digit (fun c hc => hc) (class2_spec h3)
      obtain ⟨e4, l4⟩ := strip_opt_digit isMin1_digit (optClass_spec h4)
      obtain ⟨e5, l5⟩ := strip_opt_digit (fun c hc => hc) (optClass_spec h5)
      rw [stripSeps_append, stripSeps_append, stripSeps_append, stripSeps_append,
        e1, e2, e3, e4, e5]
      simp only [List.length_append, l1, l3, List.length_nil]
      omega

/-- A successful attempt at a fixed position decomposes into a date group and
an optional time group. -/
theorem tryMatchAt_groups : ∀ {cs d t a}, tryMatchAt cs = some (d, t, a) →
    (∃ r, matchDate cs = some (d, r))
      ∧ (t = [] ∨ ∃ cs2 r2, matchTime cs2 = some (t, r2)) := by
  intro cs d t a h
  unfold tryMatchAt at h
  split at h
  · exact absurd h (by simp)
  · rename_i d0 r1 h1
    split at h
    · rename_i rest
      split at h
      · simp only [Option.some.injEq, Prod.mk.injEq] at h
        obtain ⟨rfl, rfl, -⟩ := h
        exact ⟨⟨_, h1⟩, Or.inl rfl⟩
      · rename_i t0 r3 h2
        simp only [Option.some.injEq, Prod.mk.injEq] at h
        obtain ⟨rfl, rfl, -⟩ := h
        exact ⟨⟨_, h1⟩, Or.inr ⟨_, _, h2⟩⟩
    · split at h
      · simp only [Option.some.injEq, Prod.mk.injEq] at h
        obtain ⟨rfl, rfl, -⟩ := h
        exact ⟨⟨_, h1⟩, Or.inl rfl⟩
      · rename_i t0 r3 h2
        simp only [Option.some.injEq, Prod.mk.injEq] at h
        obtain ⟨rfl, rfl, -⟩ := h
        exact ⟨⟨_, h1⟩, Or.inr ⟨_, _, h2⟩⟩

/-- Every successful match decomposes positionally: the date, time and after
groups come from a successful attempt at some suffix. -/
theorem pyMatch_groups : ∀ {cs m}, pyMatch cs = some m →
    ∃ cs2, tryMatchAt cs2 = some (m.date, m.time, m.after) := by
  intro cs
  induction cs with
  | nil =>
    intro m h
    unfold pyMatch tryMatchHere at h
    split at h
    · exact absurd h (by simp)
    · rename_i d t a h1
      simp only [Option.some.injEq] at h
      subst h
      exact ⟨[], h1⟩
  | cons c rest ih =>
    intro m h
    unfold pyMatch at h
    split at h
    · unfold tryMatchHere at h
      split at h
      · exact absurd h (by simp)
      · rename_i d t a h1
        simp only [Option.some.injEq] at h
        subst h
        exact ⟨c :: rest, h1⟩
    · split at h
      · rename_i m2 h2
        simp only [Option.some.injEq] at h
        subst h
        obtain ⟨cs2, hc⟩ := ih h2
        exact ⟨cs2, hc⟩
      · rename_i h2
        unfold tryMatchHere at h
        split at h
        · exact absurd h (by simp)
        · rename_i d t a h1
          simp only [Option.some.injEq] at h
          subst h
          exact ⟨c :: rest, h1⟩


/-! ### Lemmas about the tie-break loop -/

theorem tieBreakGo_mem (cur : String) (ms : List String) :
    ∀ opts, cur ∈ ms → tieBreakGo cur ms opts ∈ ms := by
  intro opts
  induction opts generalizing cur with
  | nil => intro h; exact h
  | cons o os ih =>
    intro h
    unfold tieBreakGo
    cases hf : ms.find? (fun m => containsSub m.toList o) with
    | none => exact h
    | some m => exact ih m (List.mem_of_find?_eq_some hf)

theorem tieBreakGo_eq (ms : List String) :
    ∀ opts cur, tieBreakGo cur ms opts =
      (match (opts.takeWhile (fun o => ms.any (fun m => containsSub m.toList o))).getLast? with
       | none => cur
       | some o => ((ms.find? (fun m => containsSub m.toList o)).getD cur)) := by
  intro opts
  induction opts with
  | nil => intro cur; rfl
  | cons o os ih =>
    intro cur
    cases hf : ms.find? (fun m => containsSub m.toList o) with
    | none =>
      have e : tieBreakGo cur ms (o :: os) = cur := by
        simp only [tieBreakGo, hf]
      have hany : ¬ ((fun o => ms.any (fun m => containsSub m.toList o)) o = true) := by
        intro hc
        obtain ⟨x, hx, hpx⟩ := List.any_eq_true.mp hc
        exact absurd hpx (by simpa using List.find?_eq_none.mp hf x hx)
      rw [e, List.takeWhile_cons_of_neg (p := fun o => ms.any (fun m => containsSub m.toList o)) hany]
      rfl
    | some m =>
      have e : tieBreakGo cur ms (o :: os) = tieBreakGo m ms os := by
        simp only [tieBreakGo, hf]
      have hpm := List.find?_some hf
      have hany : (fun o => ms.any (fun m => containsSub m.toList o)) o = true :=
        List.any_eq_true.mpr ⟨m, List.mem_of_find?_eq_some hf, hpm⟩
      rw [e, ih m,
        List.takeWhile_cons_of_pos (p := fun o => ms.any (fun m => containsSub m.toList o)) hany]
      cases hl : (os.takeWhile (fun o => ms.any (fun m => containsSub m.toList o))).getLast? with
      | none =>
        have hnil : os.takeWhile (fun o => ms.any (fun m => containsSub m.toList o)) = [] :=
          List.getLast?_eq_none_iff.mp hl
        rw [hnil]
        simp only [List.getLast?_singleton, hf, Option.getD_some]
      | some o2 =>
        have hmem : o2 ∈ os.takeWhile (fun o => ms.any (fun m => containsSub m.toList o)) :=
          List.mem_of_getLast?_eq_some hl
        have hany2 : ms.any (fun m => containsSub m.toList o2) = true :=
          List.mem_takeWhile_imp (p := fun o => ms.any (fun m => containsSub m.toList o)) hmem
        obtain ⟨x, hx, hpx⟩ := List.any_eq_true.mp hany2
        obtain ⟨y, hy⟩ : ∃ y, ms.find? (fun m => containsSub m.toList o2) = some y := by
          cases hfy : ms.find? (fun m => containsSub m.toList o2) with
          | none => exact absurd hpx (by simpa using List.find?_eq_none.mp hfy x hx)
          | some y => exact ⟨y, rfl⟩
        cases hE : os.takeWhile (fun o => ms.any (fun m => containsSub m.toList o)) with
        | nil => rw [hE] at hl; simp at hl
        | cons x2 xs2 =>
          rw [hE] at hl
          rw [List.getLast?_cons_cons, hl]
          simp only [hy, Option.getD_some]

/-! ### Lemmas about buckets -/

theorem bucketGet_push_same (b : TSBuckets) (id : BucketId) (p : PDateTime × Option Rat) :
    bucketGet (push b id p) id = bucketGet b id ++ [p] := by
  cases id <;> rfl

theorem bucketGet_push_other (b : TSBuckets) (id id2 : BucketId) (p : PDateTime × Option Rat)
    (h : id2 ≠ id) : bucketGet (push b id p) id2 = bucketGet b id2 := by
  cases id <;> cases id2 <;> first
    | exact absurd rfl h
    | rfl

theorem totalCount_push (b : TSBuckets) (id : BucketId) (p : PDateTime × Option Rat) :
    totalCount (push b id p) = totalCount b + 1 := by
  cases id <;> simp [push, totalCount, List.length_append] <;> omega

/-! ### Lemmas about the extraction loop -/

theorem stepKey_skip (b : TSBuckets) (key : String) (v : AttrValue)
    (h : pyMatch (lowerChars key.toList) = none) : stepKey b key v = some b := by
  simp only [stepKey, h]

theorem stepKey_hit (b : TSBuckets) (key : String) (v : AttrValue) (m : DateMatch)
    (dtObj : PDateTime)
    (h1 : pyMatch (lowerChars key.toList) = some m)
    (h2 : mkDateTime (stripSeps (m.date ++ m.time)) = some dtObj) :
    stepKey b key v
      = some (push b (bucketOf (stripSeps (m.before ++ m.after))) (dtObj, pyFloat v)) := by
  simp only [stepKey, h1, h2]

theorem stepKey_crash (b : TSBuckets) (key : String) (v : AttrValue) (m : DateMatch)
    (h1 : pyMatch (lowerChars key.toList) = some m)
    (h2 : mkDateTime (stripSeps (m.date ++ m.time)) = none) :
    stepKey b key v = none := by
  simp only [stepKey, h1, h2]

theorem extractGo_append (l1 l2 : List (String × AttrValue)) :
    ∀ b, extractGo b (l1 ++ l2) =
      (match extractGo b l1 with
       | none => none
       | some b2 => extractGo b2 l2) := by
  induction l1 with
  | nil => intro b; rfl
  | cons kv rest ih =>
    intro b
    rw [List.cons_append]
    cases h : stepKey b kv.1 kv.2 with
    | none =>
      have e1 : extractGo b (kv :: (rest ++ l2)) = none := by
        simp only [extractGo, h]
      have e2 : extractGo b (kv :: rest) = none := by
        simp only [extractGo, h]
      rw [e1, e2]
    | some b2 =>
      have e1 : extractGo b (kv :: (rest ++ l2)) = extractGo b2 (rest ++ l2) := by
        simp only [extractGo, h]
      have e2 : extractGo b (kv :: rest) = extractGo b2 rest := by
        simp only [extractGo, h]
      rw [e1, e2, ih b2]

theorem extractGo_count (attrs : List (String × AttrValue)) :
    ∀ b0 b, extractGo b0 attrs = some b →
      totalCount b = totalCount b0
        + attrs.countP (fun kv => (pyMatch (lowerChars kv.1.toList)).isSome) := by
  induction attrs with
  | nil =>
    intro b0 b h
    simp only [extractGo, Option.some.injEq] at h
    subst h
    simp
  | cons kv rest ih =>
    intro b0 b h
    cases h1 : pyMatch (lowerChars kv.1.toList) with
    | none =>
      have e : extractGo b0 (kv :: rest) = extractGo b0 rest := by
        simp only [extractGo, stepKey_skip b0 kv.1 kv.2 h1]
      rw [e] at h
      have hpred : ¬ ((pyMatch (lowerChars kv.1.toList)).isSome = true) := by
        rw [h1]
        simp
      rw [ih b0 b h,
        List.countP_cons_of_neg (fun kv => (pyMatch (lowerChars kv.1.toList)).isSome) rest hpred]
    | some m =>
      cases h2 : mkDateTime (stripSeps (m.date ++ m.time)) with
      | none =>
        have e : extractGo b0 (kv :: rest) = none := by
          simp only [extractGo, stepKey_crash b0 kv.1 kv.2 m h1 h2]
        rw [e] at h
        exact absurd h (by simp)
      | some dtObj =>
        have e : extractGo b0 (kv :: rest)
            = extractGo (push b0 (bucketOf (stripSeps (m.before ++ m.after)))
                (dtObj, pyFloat kv.2)) rest := by
          simp only [extractGo, stepKey_hit b0 kv.1 kv.2 m dtObj h1 h2]
        rw [e] at h
        have hpred : (pyMatch (lowerChars kv.1.toList)).isSome = true := by
          rw [h1]
          rfl
        rw [ih _ b h, totalCount_push,
          List.countP_cons_of_pos (fun kv => (pyMatch (lowerChars kv.1.toList)).isSome) rest hpred]
        omega

/-! ### The source cascade agrees with the spec-worded routing -/

theorem bucketOf_eq_specRoute (tag : List Char) : bucketOf tag = specRoute tag := by
  have hsig : sigmaTag tag = specUncertainTag tag := by
    simp [sigmaTag, keysUncertainty, specUncertainTag, List.any_cons, Bool.or_assoc]
  unfold bucketOf specRoute specBaseBucket
  rw [hsig]
  cases hu : specUncertainTag tag <;> split_ifs <;> first
    | rfl
    | assumption
    | (rename_i hx; exact absurd rfl hx)

/-- Helper: a returned velocity field name is one of the filtered candidates. -/
theorem velocityResult_mem (fields : List String) (name : String)
    (h : (getVectorVelocityFieldName fields).1 = some name) : name ∈ velMatches fields := by
  unfold getVectorVelocityFieldName at h
  cases hms : velMatches fields with
  | nil => rw [hms] at h; simp at h
  | cons m0 rest =>
    cases rest with
    | nil =>
      rw [hms] at h
      simp only [Option.some.injEq] at h
      subst h
      exact List.mem_cons_self m0 []
    | cons m1 rest2 =>
      rw [hms] at h
      simp only [Option.some.injEq] at h
      subst h
      exact tieBreakGo_mem m0 (m0 :: m1 :: rest2) velocityFieldNameOptions
        (List.mem_cons_self m0 (m1 :: rest2))

/-- C5: `checkVectorLayer` succeeds with an empty message exactly on a non-null,
valid, point(0)- or polygon(2)-geometry vector layer; each failure kind (null,
invalid, non-vector, wrong geometry) yields its fixed non-empty message. -/
theorem checkVectorLayer_correct (layer : Option Layer) :
    (checkVectorLayer layer = (true, "") ↔ isValidPointOrPolygonVector layer)
    ∧ (layer = none → checkVectorLayer layer = (false, invalidLayerMsg))
    ∧ (∀ l, layer = some l → l.isValid = false →
        checkVectorLayer layer = (false, invalidLayerMsg))
    ∧ (∀ l, layer = some l → l.isValid = true → l.type ≠ MapLayerType.vectorLayer →
        checkVectorLayer layer = (false, notVectorMsg))
    ∧ (∀ l, layer = some l → l.isValid = true → l.type = MapLayerType.vectorLayer →
        l.geometryType ≠ 0 → l.geometryType ≠ 2 →
        checkVectorLayer layer = (false, pointPolygonMsg))
    ∧ ((checkVectorLayer layer).1 = false → (checkVectorLayer layer).2 ≠ "") := by
  cases layer with
  | none =>
    refine ⟨?_, fun _ => rfl, ?_, ?_, ?_, ?_⟩
    · simp [checkVectorLayer, isValidPointOrPolygonVector]
    · intro l hl; exact absurd hl (by simp)
    · intro l hl; exact absurd hl (by simp)
    · intro l hl; exact absurd hl (by simp)
    · intro _; decide
  | some l =>
    have hchar : checkVectorLayer (some l) =
        (if l.isValid = false then (false, invalidLayerMsg)
         else if l.type ≠ MapLayerType.vectorLayer then (false, notVectorMsg)
         else if l.geometryType ≠ 0 ∧ l.geometryType ≠ 2 then (false, pointPolygonMsg)
         else (true, "")) := rfl
    refine ⟨?_, ?_, ?_, ?_, ?_, ?_⟩
    · rw [hchar]
      split_ifs with h1 h2 h3
      · simp only [Prod.mk.injEq]
        constructor
        · rintro ⟨h, -⟩; exact absurd h Bool.false_ne_true
        · rintro ⟨l2, hl2, hv, -, -⟩
          rw [Option.some.injEq] at hl2
          subst hl2
          rw [h1] at hv
          exact absurd hv Bool.false_ne_true
      · simp only [Prod.mk.injEq]
        constructor
        · rintro ⟨h, -⟩; exact absurd h Bool.false_ne_true
        · rintro ⟨l2, hl2, -, ht, -⟩
          rw [Option.some.injEq] at hl2
          subst hl2
          exact absurd ht h2
      · simp only [Prod.mk.injEq]
        constructor
        · rintro ⟨h, -⟩; exact absurd h Bool.false_ne_true
        · rintro ⟨l2, hl2, -, -, hg⟩
          rw [Option.some.injEq] at hl2
          subst hl2
          rcases hg with hg | hg
          · exact absurd hg h3.1
          · exact absurd hg h3.2
      · constructor
        · intro _
          refine ⟨l, rfl, ?_, not_not.mp h2, ?_⟩
          · cases hv : l.isValid
            · exact absurd hv h1
            · rfl
          · rcases not_and_or.mp h3 with hg | hg
            · exact Or.inl (not_not.mp hg)
            · exact Or.inr (not_not.mp hg)
        · intro _; rfl
    · intro h; exact absurd h (by simp)
    · intro l2 hl2 hv
      rw [Option.some.injEq] at hl2
      subst hl2
      rw [hchar, if_pos hv]
    · intro l2 hl2 hv ht
      rw [Option.some.injEq] at hl2
      subst hl2
      rw [hchar, if_neg (by simp [hv]), if_pos ht]
    · intro l2 hl2 hv ht hg0 hg2
      rw [Option.some.injEq] at hl2
      subst hl2
      rw [hchar, if_neg (by simp [hv]), if_neg (not_not_intro ht), if_pos ⟨hg0, hg2⟩]
    · rw [hchar]
      split_ifs with h1 h2 h3
      · intro _; decide
      · intro _; decide
      · intro _; decide
      · intro h; exact absurd h (by decide)

/-- Witness for C5 at a concrete invalid layer. -/
theorem checkVectorLayer_correct_witness :
    checkVectorLayer (some ⟨false, MapLayerType.vectorLayer, 0, []⟩)
      = (false, invalidLayerMsg) :=
  (checkVectorLayer_correct (some ⟨false, MapLayerType.vectorLayer, 0, []⟩)).2.2.1
    ⟨false, MapLayerType.vectorLayer, 0, []⟩ rfl rfl

/-- C6: the timeseries check propagates a validator failure unchanged;
on a validated layer it returns `(true, "")` iff some field name matches the
date pattern and the fixed non-empty message otherwise. -/
theorem checkVectorLayerTimeseries_correct (layer : Option Layer) :
    ((checkVectorLayer layer).1 = false → checkVectorLayerTimeseries layer = checkVectorLayer layer)
    ∧ ((checkVectorLayer layer).1 = true →
        (hasDateField layer = true → checkVectorLayerTimeseries layer = (true, ""))
        ∧ (hasDateField layer = false →
            checkVectorLayerTimeseries layer = (false, invalidTimeseriesMsg)))
    ∧ invalidTimeseriesMsg ≠ "" := by
  refine ⟨?_, ?_, by decide⟩
  · intro hfail
    unfold checkVectorLayerTimeseries
    rcases hc : checkVectorLayer layer with ⟨st, msg⟩
    cases st
    · rfl
    · exact absurd hfail (by simp [hc])
  · intro hok
    rcases hc : checkVectorLayer layer with ⟨st, msg⟩
    rw [hc] at hok
    cases st
    · exact absurd hok (by simp)
    · cases layer with
      | none => exact absurd hc (by simp [checkVectorLayer])
      | some l =>
        have e : checkVectorLayerTimeseries (some l) =
            (if l.fields.any (fun f => containsDateToken f.toList) then (true, "")
             else (false, invalidTimeseriesMsg)) := by
          unfold checkVectorLayerTimeseries
          rw [hc]
        constructor
        · intro hdate
          simp only [hasDateField] at hdate
          rw [e, if_pos hdate]
        · intro hdate
          simp only [hasDateField] at hdate
          rw [e, if_neg (by intro hcontra; rw [hcontra] at hdate; exact absurd hdate (by decide))]

/-- Witness for C6 at a concrete timeseries-capable layer. -/
theorem checkVectorLayerTimeseries_correct_witness :
    checkVectorLayerTimeseries (some ⟨true, MapLayerType.vectorLayer, 0, [keyDateOnly]⟩)
      = (true, "") :=
  ((checkVectorLayerTimeseries_correct
      (some ⟨true, MapLayerType.vectorLayer, 0, [keyDateOnly]⟩)).2.1 (by decide)).1 (by decide)

/-- C8: the velocity locator never returns a name containing an uncertainty
keyword (`err`, `sigma`, `std`, matched case-sensitively as the source does);
`["VEL_mean", "VEL_err"]` yields `VEL_mean`; with no usable candidate it
returns `none` with the fixed non-empty message; a returned name comes with an
empty message. -/
theorem getVectorVelocityFieldName_correct (fields : List String) :
    (∀ name, (getVectorVelocityFieldName fields).1 = some name →
        containsSub name.toList errKey = false
        ∧ containsSub name.toList sigmaKey = false
        ∧ containsSub name.toList stdKey = false)
    ∧ getVectorVelocityFieldName [fieldVelMean, fieldVelErr] = (some fieldVelMean, "")
    ∧ (velMatches fields = [] →
        getVectorVelocityFieldName fields = (none, invalidVelocityMsg)
          ∧ invalidVelocityMsg ≠ "")
    ∧ (∀ name, (getVectorVelocityFieldName fields).1 = some name →
        (getVectorVelocityFieldName fields).2 = "") := by
  refine ⟨?_, by decide, ?_, ?_⟩
  · intro name h
    have hm := velocityResult_mem fields name h
    have hp := (List.mem_filter.mp hm).2
    have hunc : isUncertainName name.toList = false := by
      rcases Bool.and_eq_true .. |>.mp hp with ⟨-, hnot⟩
      rcases Bool.not_eq_eq_eq_not .. |>.mp hnot with h2
      simpa using h2
    simpa [isUncertainName, keysUncertainty] using hunc
  · intro hnil
    refine ⟨?_, by decide⟩
    unfold getVectorVelocityFieldName
    rw [hnil]
  · intro name h
    unfold getVectorVelocityFieldName at h ⊢
    cases hms : velMatches fields with
    | nil => rw [hms] at h; simp at h
    | cons m0 rest =>
      cases rest with
      | nil => rfl
      | cons m1 rest2 => rfl

/-- Witness for C8 at the empty field list (no candidates). -/
theorem getVectorVelocityFieldName_correct_witness :
    getVectorVelocityFieldName [] = (none, invalidVelocityMsg) ∧ invalidVelocityMsg ≠ "" :=
  (getVectorVelocityFieldName_correct []).2.2.1 rfl

/-- C10: the uncertainty-keyword exclusion is case-sensitive while the velocity
pattern match is case-insensitive: the field `VEL_ERR` matches the pattern, is
not excluded, and is returned as the velocity field, whereas `VEL_err` is
excluded. -/
theorem uncertaintyExclusionCaseSensitive :
    getVectorVelocityFieldName [fieldVelERRUpper] = (some fieldVelERRUpper, "")
    ∧ (getVectorVelocityFieldName [fieldVelErr]).1 = none
    ∧ velSearch fieldVelERRUpper.toList = true
    ∧ velSearch fieldVelErr.toList = true
    ∧ isUncertainName fieldVelERRUpper.toList = false
    ∧ isUncertainName fieldVelErr.toList = true := by decide

/-- Counterexample to C1 as stated: with candidates `a_velocity` and `b_VEL`,
the first preference substring appearing in any candidate is `velocity`, whose
first carrier is `a_velocity`; the code instead keeps walking the preference
list and returns `b_VEL`, the first carrier of the later preference `VEL`. -/
theorem tieBreak_not_first_preference :
    (getVectorVelocityFieldName [fieldAVelocity, fieldBVEL]).1 = some fieldBVEL
    ∧ specTieBreakFirstPreference (velMatches [fieldAVelocity, fieldBVEL]) = some fieldAVelocity
    ∧ (getVectorVelocityFieldName [fieldAVelocity, fieldBVEL]).1
        ≠ specTieBreakFirstPreference (velMatches [fieldAVelocity, fieldBVEL]) := by decide

/-- C1 amended: with two or more candidates, the function walks the preference
list `[velocity, VEL, mean_velocity, deformation rate]` in order while each
preference occurs in some candidate, and returns the first candidate containing
the last preference of that walked prefix (the first candidate when already the
first preference occurs in none). -/
theorem tieBreak_walks_preferences (fields : List String)
    (h : 2 ≤ (velMatches fields).length) :
    (getVectorVelocityFieldName fields).1 =
      (match (velocityFieldNameOptions.takeWhile
                (fun o => (velMatches fields).any (fun m => containsSub m.toList o))).getLast? with
       | none => (velMatches fields).head?
       | some o => (velMatches fields).find? (fun m => containsSub m.toList o)) := by
  cases hms : velMatches fields with
  | nil =>
    rw [hms] at h
    simp only [List.length_nil] at h
    omega
  | cons m0 rest =>
    cases rest with
    | nil =>
      rw [hms] at h
      simp only [List.length_cons, List.length_nil] at h
      omega
    | cons m1 rest2 =>
      have e : (getVectorVelocityFieldName fields).1
          = some (tieBreakGo m0 (m0 :: m1 :: rest2) velocityFieldNameOptions) := by
        unfold getVectorVelocityFieldName
        rw [hms]
      rw [e, tieBreakGo_eq (m0 :: m1 :: rest2) velocityFieldNameOptions m0]
      cases hl : (velocityFieldNameOptions.takeWhile
          (fun o => (m0 :: m1 :: rest2).any (fun m => containsSub m.toList o))).getLast? with
      | none => rfl
      | some o =>
        have hmem := List.mem_of_getLast?_eq_some hl
        have hany : (m0 :: m1 :: rest2).any (fun m => containsSub m.toList o) = true :=
          List.mem_takeWhile_imp
            (p := fun o => (m0 :: m1 :: rest2).any (fun m => containsSub m.toList o)) hmem
        obtain ⟨x, hx, hpx⟩ := List.any_eq_true.mp hany
        obtain ⟨y, hy⟩ :
            ∃ y, (m0 :: m1 :: rest2).find? (fun m => containsSub m.toList o) = some y := by
          cases hfy : (m0 :: m1 :: rest2).find? (fun m => containsSub m.toList o) with
          | none => exact absurd hpx (by simpa using List.find?_eq_none.mp hfy x hx)
          | some y => exact ⟨y, rfl⟩
        simp only [hy, Option.getD_some]

/-- Witness for the amended C1 at the counterexample's field list. -/
theorem tieBreak_walks_preferences_witness :
    2 ≤ (velMatches [fieldAVelocity, fieldBVEL]).length
    ∧ (getVectorVelocityFieldName [fieldAVelocity, fieldBVEL]).1 =
      (match (velocityFieldNameOptions.takeWhile
                (fun o => (velMatches [fieldAVelocity, fieldBVEL]).any
                  (fun m => containsSub m.toList o))).getLast? with
       | none => (velMatches [fieldAVelocity, fieldBVEL]).head?
       | some o => (velMatches [fieldAVelocity, fieldBVEL]).find?
           (fun m => containsSub m.toList o)) :=
  ⟨by decide, tieBreak_walks_preferences [fieldAVelocity, fieldBVEL] (by decide)⟩

/-- C2: for a key the date pattern matches, the (timestamp, value) pair is
routed by the separator-stripped before+after tag exactly as the spec's cascade
describes: the `_sigma` variant iff the tag contains `err`, `sigma` or `std`;
base bucket `los` for an empty or `los`-containing tag, else `h` if it has an
`h`, else `v` if it has a `v`, else `los`.  In particular `h20200101_err`
yields an entry in `h_sigma` for `datetime(2020, 1, 1)`. -/
theorem dateValueRouting (b : TSBuckets) (key : String) (value : AttrValue)
    (m : DateMatch) (dtObj : PDateTime)
    (h1 : pyMatch (lowerChars key.toList) = some m)
    (h2 : mkDateTime (stripSeps (m.date ++ m.time)) = some dtObj) :
    stepKey b key value
      = some (push b (specRoute (stripSeps (m.before ++ m.after))) (dtObj, pyFloat value))
    ∧ isSigmaBucket (specRoute (stripSeps (m.before ++ m.after)))
        = specUncertainTag (stripSeps (m.before ++ m.after))
    ∧ extractDateValueAttributes [(keyHDateErr, AttrValue.int 7)]
        = some { emptyBuckets with h_sigma := [(dt20200101, some 7)] } := by
  refine ⟨?_, ?_, by decide⟩
  · rw [stepKey_hit b key value m dtObj h1 h2, bucketOf_eq_specRoute]
  · unfold specRoute
    cases hb : specBaseBucket (stripSeps (m.before ++ m.after)) <;>
      cases hu : specUncertainTag (stripSeps (m.before ++ m.after)) <;> rfl

/-- Witness for C2 at the key `h20200101_err`. -/
theorem dateValueRouting_witness :
    stepKey emptyBuckets keyHDateErr (AttrValue.int 7)
      = some (push emptyBuckets
          (specRoute (stripSeps (hDateErrMatch.before ++ hDateErrMatch.after)))
          (dt20200101, pyFloat (AttrValue.int 7))) :=
  (dateValueRouting emptyBuckets keyHDateErr (AttrValue.int 7) hDateErrMatch dt20200101
    (by decide) (by decide)).1

/-- Counterexample to C3 as stated: the key `2020-01-0112345` matches the date
pattern with a five-digit time group (`12345`); the stripped digit string has
length 13, which is outside `{8, 12, 14}`, and the extraction crashes
(modelled `none`): the unhandled other-length condition is reachable. -/
theorem dateLengthThirteenReachable :
    (pyMatch (lowerChars keyLen13.toList)).map
        (fun m => (stripSeps (m.date ++ m.time)).length) = some 13
    ∧ ¬ ((13 : Nat) = 8 ∨ (13 : Nat) = 12 ∨ (13 : Nat) = 14)
    ∧ extractDateValueAttributes [(keyLen13, AttrValue.int 1)] = none := by decide

/-- C3 amended: for every key the date pattern matches, the stripped date+time
digit string has length 8, 12, 13 or 14; 8/12/14 are the format-table cases,
while 13 (an eight-digit date plus a five-digit time group) falls outside the
table and is the reachable unhandled condition. -/
theorem strippedDateTimeLength (key : String) (m : DateMatch)
    (h : pyMatch (lowerChars key.toList) = some m) :
    (stripSeps (m.date ++ m.time)).length = 8
    ∨ (stripSeps (m.date ++ m.time)).length = 12
    ∨ (stripSeps (m.date ++ m.time)).length = 13
    ∨ (stripSeps (m.date ++ m.time)).length = 14 := by
  obtain ⟨cs2, hat⟩ := pyMatch_groups h
  obtain ⟨⟨r, hd⟩, ht⟩ := tryMatchAt_groups hat
  have hdlen := matchDate_strip hd
  rw [stripSeps_append, List.length_append, hdlen]
  rcases ht with he | ⟨cs3, r2, htm⟩
  · rw [he]
    left
    simp [stripSeps]
  · rcases matchTime_strip htm with h4 | h5 | h6
    · right; left; omega
    · right; right; left; omega
    · right; right; right; omega

/-- Witness for the amended C3 at the plain key `20200101`. -/
theorem strippedDateTimeLength_witness :
    (stripSeps (dateOnlyMatch.date ++ dateOnlyMatch.time)).length = 8
    ∨ (stripSeps (dateOnlyMatch.date ++ dateOnlyMatch.time)).length = 12
    ∨ (stripSeps (dateOnlyMatch.date ++ dateOnlyMatch.time)).length = 13
    ∨ (stripSeps (dateOnlyMatch.date ++ dateOnlyMatch.time)).length = 14 :=
  strippedDateTimeLength keyDateOnly dateOnlyMatch (by decide)

/-- Counterexample to C4 as stated: `extractDateValueAttributes` lower-cases
the key but compiles its pattern without IGNORECASE, so the literal `T` of
`20200101T1200` never matches `T?`: the stripped digit string has length 8
(not 12) and the recorded timestamp is date-only midnight, not 12:00. -/
theorem capitalTNotMatched :
    (pyMatch (lowerChars keyDateT.toList)).map
        (fun m => (stripSeps (m.date ++ m.time)).length) = some 8
    ∧ ¬ ((pyMatch (lowerChars keyDateT.toList)).map
        (fun m => (stripSeps (m.date ++ m.time)).length) = some 12)
    ∧ extractDateValueAttributes [(keyDateT, AttrValue.int 1)]
        = some { emptyBuckets with los := [(dt20200101, some 1)] } := by decide

/-- C4 amended: for the key `20200101T1200` the lower-cased key leaves `t1200`
outside the (unmatched) time group, so for every attribute value the pair is
recorded date-only (midnight 2020-01-01) in the `los` bucket, and the time
digits together with the `t` become part of the after-tag. -/
theorem capitalTSeparatorLowercased (value : AttrValue) :
    extractDateValueAttributes [(keyDateT, value)]
      = some { emptyBuckets with los := [(dt20200101, pyFloat value)] }
    ∧ (pyMatch (lowerChars keyDateT.toList)).map DateMatch.time = some []
    ∧ (pyMatch (lowerChars keyDateT.toList)).map DateMatch.after
        = some ['t', '1', '2', '0', '0'] := by
  refine ⟨?_, by decide, by decide⟩
  have hm : pyMatch (lowerChars keyDateT.toList) = some dateTMatch := by decide
  have e : stepKey emptyBuckets keyDateT value
      = some (push emptyBuckets (bucketOf (stripSeps (dateTMatch.before ++ dateTMatch.after)))
          (dt20200101, pyFloat value)) :=
    stepKey_hit emptyBuckets keyDateT value dateTMatch dt20200101 hm (by decide)
  have ebucket : bucketOf (stripSeps (dateTMatch.before ++ dateTMatch.after))
      = BucketId.los := by decide
  rw [ebucket] at e
  unfold extractDateValueAttributes
  simp only [extractGo, e]
  rfl

/-- C7: a date-matching key whose value cannot be coerced to a float records
its pair with the not-a-number value (modelled `none`) instead of raising, and
the processing of the keys before and after it is unaffected. -/
theorem nonNumericValueBecomesNan (pre post : List (String × AttrValue))
    (key : String) (value : AttrValue) (m : DateMatch) (dtObj : PDateTime)
    (h1 : pyMatch (lowerChars key.toList) = some m)
    (h2 : mkDateTime (stripSeps (m.date ++ m.time)) = some dtObj)
    (h3 : pyFloat value = none) :
    extractDateValueAttributes (pre ++ (key, value) :: post)
      = (match extractDateValueAttributes pre with
         | none => none
         | some b => extractGo
             (push b (bucketOf (stripSeps (m.before ++ m.after))) (dtObj, none)) post) := by
  unfold extractDateValueAttributes
  rw [extractGo_append pre ((key, value) :: post) emptyBuckets]
  cases hp : extractGo emptyBuckets pre with
  | none => rfl
  | some b =>
    have e : stepKey b key value
        = some (push b (bucketOf (stripSeps (m.before ++ m.after))) (dtObj, none)) := by
      rw [stepKey_hit b key value m dtObj h1 h2, h3]
    simp only [extractGo, e]

/-- Witness for C7: the non-numeric value `NULL` under key `20200101` is
recorded as nan rather than crashing. -/
theorem nonNumericValueBecomesNan_witness :
    extractDateValueAttributes ([] ++ (keyDateOnly, AttrValue.str strNULL) :: [])
      = (match extractDateValueAttributes [] with
         | none => none
         | some b => extractGo
             (push b (bucketOf (stripSeps (dateOnlyMatch.before ++ dateOnlyMatch.after)))
               (dt20200101, none)) []) :=
  nonNumericValueBecomesNan [] [] keyDateOnly (AttrValue.str strNULL) dateOnlyMatch dt20200101
    (by decide) (by decide) (by decide)

/-- C9: when extraction succeeds, the result holds exactly one (timestamp,
value) pair per date-matching key and none for other keys: the total count
over the six buckets equals the number of matching keys, a non-matching key
leaves every bucket unchanged, a matching key appends exactly one pair to
exactly one bucket, and the empty mapping already yields all six (empty)
buckets. -/
theorem extraction_bucket_invariant (attrs : List (String × AttrValue)) (b : TSBuckets)
    (h : extractDateValueAttributes attrs = some b) :
    totalCount b = attrs.countP (fun kv => (pyMatch (lowerChars kv.1.toList)).isSome)
    ∧ (∀ b0 key v, pyMatch (lowerChars key.toList) = none → stepKey b0 key v = some b0)
    ∧ (∀ b0 b1 key v, (pyMatch (lowerChars key.toList)).isSome = true →
        stepKey b0 key v = some b1 →
        ∃ id p, b1 = push b0 id p
          ∧ bucketGet b1 id = bucketGet b0 id ++ [p]
          ∧ ∀ id2, id2 ≠ id → bucketGet b1 id2 = bucketGet b0 id2)
    ∧ extractDateValueAttributes [] = some emptyBuckets := by
  refine ⟨?_, ?_, ?_, rfl⟩
  · have hcount := extractGo_count attrs emptyBuckets b h
    simpa [totalCount, emptyBuckets] using hcount
  · intro b0 key v h0
    exact stepKey_skip b0 key v h0
  · intro b0 b1 key v hsome hstep
    cases hm : pyMatch (lowerChars key.toList) with
    | none => rw [hm] at hsome; exact absurd hsome (by simp)
    | some m =>
      cases h2 : mkDateTime (stripSeps (m.date ++ m.time)) with
      | none =>
        rw [stepKey_crash b0 key v m hm h2] at hstep
        exact absurd hstep (by simp)
      | some dtObj =>
        rw [stepKey_hit b0 key v m dtObj hm h2] at hstep
        rw [Option.some.injEq] at hstep
        subst hstep
        refine ⟨bucketOf (stripSeps (m.before ++ m.after)), (dtObj, pyFloat v), rfl, ?_, ?_⟩
        · exact bucketGet_push_same b0 _ _
        · intro id2 hne
          exact bucketGet_push_other b0 _ id2 _ hne

/-- Witness for C9 at the empty attribute mapping. -/
theorem extraction_bucket_invariant_witness :
    totalCount emptyBuckets
        = List.countP (fun kv => (pyMatch (lowerChars kv.1.toList)).isSome)
            ([] : List (String × AttrValue))
    ∧ (∀ b0 key v, pyMatch (lowerChars key.toList) = none → stepKey b0 key v = some b0)
    ∧ (∀ b0 b1 key v, (pyMatch (lowerChars key.toList)).isSome = true →
        stepKey b0 key v = some b1 →
        ∃ id p, b1 = push b0 id p
          ∧ bucketGet b1 id = bucketGet b0 id ++ [p]
          ∧ ∀ id2, id2 ≠ id → bucketGet b1 id2 = bucketGet b0 id2)
    ∧ extractDateValueAttributes [] = some emptyBuckets :=
  extraction_bucket_invariant [] emptyBuckets rfl

/-- Witness for the amended C4 at a concrete value. -/
theorem capitalTSeparatorLowercased_witness :
    extractDateValueAttributes [(keyDateT, AttrValue.int 5)]
      = some { emptyBuckets with los := [(dt20200101, pyFloat (AttrValue.int 5))] }
    ∧ (pyMatch (lowerChars keyDateT.toList)).map DateMatch.time = some []
    ∧ (pyMatch (lowerChars keyDateT.toList)).map DateMatch.after
        = some ['t', '1', '2', '0', '0'] :=
  capitalTSeparatorLowercased (AttrValue.int 5)
